import Mathlib

/-!
Shallow embedding of the `embedded-gfx-menu-dev` menu core
(`src/menu/mod.rs`, `src/menu/menu_item.rs`, `src/menu/items/submenu.rs`)
and proofs about its navigation state machine, tree mutation and draw
pipeline.

Machine integers: the Rust code uses `usize`/`u32`/`i32`.  Sizes and counts
are modelled as `Nat`; wherever release-mode wrapping arithmetic matters
(`move_up`'s `item_count - 1` underflow, `move_down`'s increment) the
operations are written with an explicit word size `w` and reduction
modulo `2 ^ w`.  Pixel coordinates (`Point`) are `Int`, as Rust's `i32`.
-/

namespace EGMenu

/-- Rust `embedded_graphics::geometry::Point` (i32 coordinates). -/
structure Point where
  x : Int
  y : Int
deriving Repr, DecidableEq

/-- Rust `Point::zero()`. -/
def Point.zero : Point := ⟨0, 0⟩

/-- Rust `embedded_graphics::geometry::Size` (u32 components). -/
structure Size where
  width : Nat
  height : Nat
deriving Repr, DecidableEq

/-- Rust `embedded_graphics::primitives::Rectangle`. -/
structure Rectangle where
  top_left : Point
  size : Size
deriving Repr, DecidableEq

/-- Rust `Rectangle::resized_height(height, AnchorY::Bottom)`: the bottom edge is
kept, the top edge moves down by the height difference. -/
def Rectangle.resized_height_bottom (r : Rectangle) (h : Nat) : Rectangle :=
  ⟨⟨r.top_left.x, r.top_left.y + (r.size.height : Int) - (h : Int)⟩,
   ⟨r.size.width, h⟩⟩

/-- Rust `Rectangle::resized_width(width, AnchorX::Right)`: the right edge is
kept, the left edge moves right by the width difference. -/
def Rectangle.resized_width_right (r : Rectangle) (w : Nat) : Rectangle :=
  ⟨⟨r.top_left.x + (r.size.width : Int) - (w : Int), r.top_left.y⟩,
   ⟨w, r.size.height⟩⟩

/-- Rust `Rectangle::resized_width(width, AnchorX::Left)`: the left edge is
kept. -/
def Rectangle.resized_width_left (r : Rectangle) (w : Nat) : Rectangle :=
  ⟨r.top_left, ⟨w, r.size.height⟩⟩

/-- Rust `u32` wrapping subtraction (release-mode semantics), for operands
below `2 ^ 32`. -/
def u32sub (a b : Nat) : Nat :=
  if b ≤ a then a - b else a + (2 ^ 32 - b)

/-- A `MonoTextStyle`: a monospaced font with fixed character cell.
`line_height()` returns the character height; `measure_string` returns a
bounding box of `len * charWidth` by `charHeight` (the text metrics
provider is an external collaborator; this models its mono-font
contract). -/
structure MonoTextStyle where
  charWidth : Nat
  charHeight : Nat
deriving Repr, DecidableEq

/-- Rust `MonoTextStyle::line_height()`. -/
def MonoTextStyle.line_height (s : MonoTextStyle) : Nat := s.charHeight

/-- Height of `measure_string(label, zero, Baseline::Bottom).bounding_box`
for a single-line label. -/
def MonoTextStyle.measure_height (s : MonoTextStyle) (_label : String) : Nat :=
  s.charHeight

/-- Rust `MenuStyle` (src/menu/mod.rs). -/
structure MenuStyle (C : Type) where
  menu_background_color : C
  heading_character_style : MonoTextStyle
  item_character_style : MonoTextStyle
  indicator_fill_color : C
  highlight_item_color : C
  highlight_text_style : MonoTextStyle
deriving Repr, DecidableEq

/-- Rust `MenuItemType` (src/menu/menu_item.rs). -/
inductive MenuItemType where
  | Section
  | Checkbox
  | Selector
  | Submenu
deriving Repr, DecidableEq

/-- Rust `MenuItem` (src/menu/menu_item.rs): the unified entry record carrying
the variant tag.  The `options` field models the option list of the
`MultiOptionItem` payload.  Modelled from the spec: `items/multi_option.rs`
is not under src/; per §3 a Selector "additionally owns a fixed list of
selectable option strings and a current-selection index"; no claim touches
the selection index, only the constructor argument is kept. -/
structure MenuItem (C : Type) where
  label : String
  item_type : MenuItemType
  highlighted : Bool
  position : Point
  menu_style : MenuStyle C
  options : List String
deriving Repr, DecidableEq

/-- Rust `MenuItem::new` (menu_item.rs): highlight off, position zero. -/
def MenuItem.new {C : Type} (label : String) (item_type : MenuItemType)
    (menu_style : MenuStyle C) : MenuItem C :=
  ⟨label, item_type, false, Point.zero, menu_style, []⟩

/-- Rust `View::bounds` (menu_item.rs / submenu.rs): the bounding box of the
label measured with the item text style. `size().height` of an entry. -/
def MenuItem.size_height {C : Type} (it : MenuItem C) : Nat :=
  it.menu_style.item_character_style.measure_height it.label

namespace Trees

/-- Rust `trees::Tree`: an ordered n-ary tree; a node owns its data and its
children outright. -/
inductive Tree (α : Type) where
  | node (data : α) (children : List (Tree α))
deriving Repr

/-- Rust `Node::data()`. -/
def Tree.data {α : Type} : Tree α → α
  | .node a _ => a

/-- The child forest of a node. -/
def Tree.children {α : Type} : Tree α → List (Tree α)
  | .node _ cs => cs

/-- Rust `Tree::push_back`: appends a subtree as a new last child. -/
def Tree.push_back {α : Type} (t : Tree α) (c : Tree α) : Tree α :=
  .node t.data (t.children ++ [c])

/-- Rust `Node::iter().count()`: `iter()` iterates over the direct child nodes
of a node (the `trees` crate's forward children iterator), so `count()`
is the number of direct children. -/
def Tree.iter_count {α : Type} (t : Tree α) : Nat :=
  t.children.length

end Trees

open Trees

/-- Rust `MenuState` (src/menu/mod.rs). -/
structure MenuState where
  highlighted_item : Nat
  item_count : Nat
deriving Repr, DecidableEq

/-- Rust `MenuState::new()`. -/
def MenuState.new : MenuState := ⟨0, 0⟩

/-- Rust `MenuState::update_item_count`. -/
def MenuState.update_item_count (s : MenuState) (item_count : Nat) : MenuState :=
  { s with item_count := item_count }

/-- Rust `MenuState::move_down` at word size `w`: `highlighted_item += 1`
(wrapping), then reset to 0 if strictly greater than `item_count`. -/
def MenuState.move_down (w : Nat) (s : MenuState) : MenuState :=
  if (s.highlighted_item + 1) % 2 ^ w > s.item_count then
    { s with highlighted_item := 0 }
  else
    { s with highlighted_item := (s.highlighted_item + 1) % 2 ^ w }

/-- Rust `MenuState::move_up` at word size `w`: at 0 the cursor becomes
`item_count - 1` with `usize` wrapping subtraction, otherwise it
decrements. -/
def MenuState.move_up (w : Nat) (s : MenuState) : MenuState :=
  if s.highlighted_item = 0 then
    { s with highlighted_item := (s.item_count + (2 ^ w - 1)) % 2 ^ w }
  else
    { s with highlighted_item := s.highlighted_item - 1 }

/-- Rust `MenuState::highlighted_item()`. -/
def MenuState.highlighted_item_get (s : MenuState) : Nat := s.highlighted_item

/-- Rust `Menu` (src/menu/mod.rs). -/
structure Menu (C : Type) where
  menu_tree_root : Trees.Tree (MenuItem C)
  menu_style : MenuStyle C
  menu_state : MenuState
deriving Repr

/-- Rust `Menu::new`: the root holds a Submenu-typed entry carrying the title. -/
def Menu.new {C : Type} (label : String) (menu_style : MenuStyle C) : Menu C :=
  ⟨.node (MenuItem.new label .Submenu menu_style) [], menu_style, MenuState.new⟩

/-- Rust `Menu::add_item`: push the entry as a new last child of the root and
recompute the item count as `menu_tree_root.iter().count()`. -/
def Menu.add_item {C : Type} (m : Menu C) (item : MenuItem C) : Menu C :=
  let root := m.menu_tree_root.push_back (.node item [])
  { m with
      menu_tree_root := root
      menu_state := m.menu_state.update_item_count root.iter_count }

/-- Rust `Menu::add_checkbox`.  Modelled from the spec for the missing
`items/checkbox.rs`: the convenience constructor builds the Checkbox
entry with the menu's own style (§4.2), as `menu_item.rs` does via
`MenuItem::new`. -/
def Menu.add_checkbox {C : Type} (m : Menu C) (label : String) : Menu C :=
  m.add_item (MenuItem.new label .Checkbox m.menu_style)

/-- Rust `Menu::add_selector`.  Modelled from the spec for the missing
`items/multi_option.rs`: builds the Selector entry with the menu's style
and the supplied options (§4.2). -/
def Menu.add_selector {C : Type} (m : Menu C) (label : String)
    (options : List String) : Menu C :=
  m.add_item { MenuItem.new label .Selector m.menu_style with options := options }

/-- Rust `Menu::add_section`.  Modelled from the spec for the missing
`items/section.rs`: builds the Section entry with the menu's style
(§4.2). -/
def Menu.add_section {C : Type} (m : Menu C) (label : String) : Menu C :=
  m.add_item (MenuItem.new label .Section m.menu_style)

/-- Rust `Menu::add_submenu`: pushes the absorbed menu's whole tree as a new
last child subtree of the root and recomputes the item count. -/
def Menu.add_submenu {C : Type} (m : Menu C) (submenu : Menu C) : Menu C :=
  let root := m.menu_tree_root.push_back submenu.menu_tree_root
  { m with
      menu_tree_root := root
      menu_state := m.menu_state.update_item_count root.iter_count }

/-- Rust `Menu::navigate_down`. -/
def Menu.navigate_down {C : Type} (w : Nat) (m : Menu C) : Menu C :=
  { m with menu_state := m.menu_state.move_down w }

/-- Rust `Menu::navigate_up`. -/
def Menu.navigate_up {C : Type} (w : Nat) (m : Menu C) : Menu C :=
  { m with menu_state := m.menu_state.move_up w }

/-- Rust `Menu::select_item`: `pub fn select_item(&mut self) {}` — an empty
body. -/
def Menu.select_item {C : Type} (m : Menu C) : Menu C := m

/-! ## The draw pipeline

`Menu::draw` and `MenuItem::draw` perform a sequence of surface
operations (clear, text, filled triangle), each against a clipped
sub-region of the display, each fallible.  The parameters of every
operation are pure data (no operation's parameters depend on a previous
operation's result), so the pipeline is modelled as a pure operation
trace plus an executor that runs the trace in order and stops at the
first error — observably the same as the `?`-propagating Rust code. -/

/-- Rust `embedded_graphics::text::Baseline` (only the variants used). -/
inductive Baseline where
  | Top
  | Bottom
deriving Repr, DecidableEq

/-- Rust `embedded_graphics::text::Alignment` (only the variants used);
`Left` is the default of `Text::with_baseline`. -/
inductive Alignment where
  | Left
  | Right
deriving Repr, DecidableEq

/-- A surface operation.  `region` is the absolute rectangle of the
(innermost) cropped draw target the operation is issued on; positions
inside the operation are relative to that region, as in the code. -/
inductive DrawOp (C : Type) where
  | clear (region : Rectangle) (color : C)
  | text (region : Rectangle) (s : String) (pos : Point) (style : MonoTextStyle)
      (align : Alignment) (baseline : Baseline)
  | triangle (region : Rectangle) (p1 p2 p3 : Point) (color : C)
deriving Repr, DecidableEq

/-- Rust `DrawTargetExt::cropped`: the child target's origin is translated to
the parent's origin plus the (parent-relative) crop area's corner.  (The
real `Cropped` also clips to the parent; in this code every crop lies
inside its parent vertically, which is all the row bounds below use.) -/
def Rectangle.crop_within (parent rel : Rectangle) : Rectangle :=
  ⟨⟨parent.top_left.x + rel.top_left.x, parent.top_left.y + rel.top_left.y⟩, rel.size⟩

/-- Rust `u32 as i32` cast (two's complement reinterpretation). -/
def i32cast (n : Nat) : Int :=
  if n < 2 ^ 31 then (n : Int) else (n : Int) - 2 ^ 32

/-- Width of a string rendered with a mono text style. -/
def MonoTextStyle.text_width (s : MonoTextStyle) (t : String) : Nat :=
  t.length * s.charWidth

/-- Horizontal extent `[lo, hi)` of a text drawn at anchor `pos` with the
given alignment: left-aligned text extends right from the anchor,
right-aligned text extends left from it. -/
def textExtentX (pos : Point) (align : Alignment) (w : Nat) : Int × Int :=
  match align with
  | .Left => (pos.x, pos.x + w)
  | .Right => (pos.x - w, pos.x)

/-- Rust `MenuItem::draw` (src/menu/menu_item.rs), as the list of surface
operations it issues on a cropped target whose absolute rectangle is
`region`.  Inside the entry's draw, `display.bounding_box()` is the
origin-anchored rectangle of `region.size`. -/
def MenuItem.drawOps {C : Type} (it : MenuItem C) (region : Rectangle) :
    List (DrawOp C) :=
  match it.item_type with
  | .Submenu =>
    let h := it.size_height
    let display_size : Rectangle := ⟨Point.zero, region.size⟩
    let submenu_indicator_draw_area := display_size.resized_width_right (h / 2)
    let indicator_region := region.crop_within submenu_indicator_draw_area
    let submenu_label_draw_area :=
      display_size.resized_width_left (u32sub region.size.width (h / 2))
    let label_region := region.crop_within submenu_label_draw_area
    [ .triangle indicator_region
        ⟨0, 2⟩
        ⟨0, i32cast (u32sub h 2)⟩
        ⟨i32cast (u32sub (h / 2) 2), i32cast (u32sub h 4 / 2 + 2)⟩
        it.menu_style.indicator_fill_color,
      .text label_region it.label it.position
        it.menu_style.item_character_style .Left .Top ]
  | .Checkbox =>
    [ .text region it.label it.position
        it.menu_style.item_character_style .Left .Top,
      .text region "[ ]" ⟨i32cast region.size.width, 0⟩
        it.menu_style.item_character_style .Right .Top ]
  | _ =>
    [ .text region it.label it.position
        it.menu_style.item_character_style .Left .Top ]

/-- The `for menu_item in menu_iter` loop of `Menu::draw`: walks the
items, stops (`break`) at the first whose height exceeds the remaining
area's height, otherwise records the item with the crop rectangle it is
drawn against and shrinks the remaining area to its bottom-anchored
remainder.  (The shrink `remaining - height` sits behind the `break`
guard, so the `u32` subtraction cannot wrap.) -/
def drawLoop {C : Type} : List (MenuItem C) → Rectangle → List (MenuItem C × Rectangle)
  | [], _ => []
  | it :: rest, remaining =>
    if it.size_height > remaining.size.height then []
    else
      (it, remaining) ::
        drawLoop rest
          (remaining.resized_height_bottom (remaining.size.height - it.size_height))

/-- The item sequence `Menu::draw` feeds its loop:
`menu_tree_root.iter().skip(highlighted_item())`, i.e. the root's direct
children in insertion order with the first `cursor` skipped, each
contributing its own `data()`. -/
def Menu.menu_iter_items {C : Type} (m : Menu C) : List (MenuItem C) :=
  (m.menu_tree_root.children.drop m.menu_state.highlighted_item).map Trees.Tree.data

/-- The items `Menu::draw` actually draws, paired with the crop rectangle
each is drawn against.  The initial remaining area is the display area
shrunk by the header height, anchored to the bottom. -/
def Menu.placedItems {C : Type} (m : Menu C) (display_area : Rectangle) :
    List (MenuItem C × Rectangle) :=
  let header_height := m.menu_style.heading_character_style.line_height
  drawLoop m.menu_iter_items
    (display_area.resized_height_bottom (u32sub display_area.size.height header_height))

/-- Rust `Menu::draw` (src/menu/mod.rs) as an operation trace: clear the whole
surface to the background color, draw the root's label with the heading
style at the top-left (baseline top), then the loop's items, each via its
own draw contract against its crop rectangle. -/
def Menu.drawTrace {C : Type} (m : Menu C) (display_area : Rectangle) :
    List (DrawOp C) :=
  DrawOp.clear display_area m.menu_style.menu_background_color ::
  DrawOp.text display_area m.menu_tree_root.data.label Point.zero
    m.menu_style.heading_character_style .Left .Top ::
  (m.placedItems display_area).flatMap fun p => p.1.drawOps p.2

/-- Run a trace against a fallible executor: each operation is invoked in
order; the first error is returned and nothing after it runs (the `?`
operator). -/
def runOps {C E : Type} (exec : DrawOp C → Except E Unit) :
    List (DrawOp C) → Except E Unit
  | [] => .ok ()
  | op :: rest =>
    match exec op with
    | .error e => .error e
    | .ok _ => runOps exec rest

/-- The operations actually invoked on the surface when running a trace:
everything up to and including the first failing one. -/
def invokedOps {C E : Type} (exec : DrawOp C → Except E Unit) :
    List (DrawOp C) → List (DrawOp C)
  | [] => []
  | op :: rest =>
    match exec op with
    | .error _ => [op]
    | .ok _ => op :: invokedOps exec rest

/-- Rust `Menu::draw` against a fallible surface. -/
def Menu.draw {C E : Type} (m : Menu C) (display_area : Rectangle)
    (exec : DrawOp C → Except E Unit) : Except E Unit :=
  runOps exec (m.drawTrace display_area)

/-- Sound upper bound (exclusive) on the absolute rows any pixel of an
operation can occupy: an operation is clipped to its region, text with
baseline top spans the character height below its anchor, a filled
triangle spans the rows between its lowest and highest vertex. -/
def DrawOp.rowHi {C : Type} : DrawOp C → Int
  | .clear region _ => region.top_left.y + region.size.height
  | .text region _ pos style _ baseline =>
    match baseline with
    | .Top =>
      min (region.top_left.y + region.size.height)
        (region.top_left.y + pos.y + style.charHeight)
    | .Bottom => min (region.top_left.y + region.size.height) (region.top_left.y + pos.y)
  | .triangle region p1 p2 p3 _ =>
    min (region.top_left.y + region.size.height)
      (region.top_left.y + max p1.y (max p2.y p3.y) + 1)

/-- Total height consumed by a list of placed items. -/
def heightsSum {C : Type} (placed : List (MenuItem C × Rectangle)) : Nat :=
  (placed.map fun p => p.1.size_height).sum

mutual

/-- Modelled from the spec: depth-first in-order traversal of a tree,
node before its children, children in insertion order — the spec-side
traversal, to be compared with what the code draws. -/
def Tree.dfs {α : Type} : Trees.Tree α → List α
  | .node a cs => a :: Tree.dfsForest cs

/-- Modelled from the spec: depth-first traversal of a forest in order. -/
def Tree.dfsForest {α : Type} : List (Trees.Tree α) → List α
  | [] => []
  | t :: ts => Tree.dfs t ++ Tree.dfsForest ts

end

/-- Modelled from the spec: the depth-first in-order traversal of all
entries excluding the root (children in insertion order, descending into
absorbed subtrees), per spec §4.4 step 4. -/
def Menu.specInOrderTraversal {C : Type} (m : Menu C) : List (MenuItem C) :=
  Tree.dfsForest m.menu_tree_root.children

/-! ## Mutation sequences -/

/-- One mutation call of the `Menu` building API. -/
inductive Mutation (C : Type) where
  | addCheckbox (label : String)
  | addSelector (label : String) (options : List String)
  | addSection (label : String)
  | addSubmenu (submenu : Menu C)

/-- Apply one mutation call to a menu. -/
def Menu.applyMutation {C : Type} (m : Menu C) : Mutation C → Menu C
  | .addCheckbox label => m.add_checkbox label
  | .addSelector label options => m.add_selector label options
  | .addSection label => m.add_section label
  | .addSubmenu submenu => m.add_submenu submenu

/-! ## Concrete instances for witnesses and counterexamples -/

/-- A concrete mono style: 6×10 character cells. -/
def sampleText : MonoTextStyle := ⟨6, 10⟩

/-- A concrete menu style over `Nat` colors. -/
def sampleStyle : MenuStyle Nat := ⟨0, sampleText, sampleText, 1, 2, sampleText⟩

/-- The spec §8 end-to-end menu: "Settings" with a Checkbox "Sound" and a
Section "About". -/
def sampleMenu : Menu Nat :=
  ((Menu.new "Settings" sampleStyle).add_checkbox "Sound").add_section "About"

/-- A menu whose root holds an absorbed submenu that itself has one
entry, so the full depth-first traversal is strictly longer than the list
of direct children. -/
def nestedMenu : Menu Nat :=
  (Menu.new "root" sampleStyle).add_submenu
    ((Menu.new "sub" sampleStyle).add_checkbox "c")

/-- A concrete 100×100 display area anchored at the origin. -/
def sampleArea : Rectangle := ⟨⟨0, 0⟩, ⟨100, 100⟩⟩

/-- A surface executor that fails (with error 7) on the clear operation
and succeeds on everything else. -/
def failClearExec : DrawOp Nat → Except Nat Unit := fun op =>
  match op with
  | .clear _ _ => .error 7
  | _ => .ok ()

/-! ## Navigation state machine theorems -/

/-- Step characterization of `move_down` for in-range fields. -/
theorem move_down_step (w : Nat) (s : MenuState)
    (h1 : s.highlighted_item < 2 ^ w) (h2 : s.item_count < 2 ^ w) :
    (s.move_down w).highlighted_item =
      if s.highlighted_item + 1 > s.item_count then 0
      else s.highlighted_item + 1 := by
  unfold MenuState.move_down
  rcases Nat.lt_or_ge (s.highlighted_item + 1) (2 ^ w) with hc | hc
  · rw [Nat.mod_eq_of_lt hc]
    by_cases hck : s.highlighted_item + 1 > s.item_count
    · rw [if_pos hck, if_pos hck]
    · rw [if_neg hck, if_neg hck]
  · have he : s.highlighted_item + 1 = 2 ^ w := by omega
    rw [he, Nat.mod_self, if_neg (by omega), if_pos (by omega)]

/-- Orbit of repeated `move_down` from cursor 0: the cursor walks
`0, 1, …, item_count` in order. -/
theorem move_down_orbit (w k : Nat) (hk : k < 2 ^ w) :
    ∀ j, j ≤ k →
      (MenuState.move_down w)^[j] (MenuState.mk 0 k) = MenuState.mk j k := by
  intro j
  induction j with
  | zero => intro _; rfl
  | succ n ih =>
    intro hj
    rw [Function.iterate_succ_apply', ih (by omega)]
    unfold MenuState.move_down
    rw [Nat.mod_eq_of_lt (show n + 1 < 2 ^ w by omega),
      if_neg (show ¬n + 1 > k by omega)]

/-- One `move_down` past the transient `cursor = item_count` state wraps
to 0. -/
theorem move_down_wrap (w k : Nat) (hk : k < 2 ^ w) :
    MenuState.move_down w (MenuState.mk k k) = MenuState.mk 0 k := by
  unfold MenuState.move_down
  rcases Nat.lt_or_ge (k + 1) (2 ^ w) with hc | hc
  · rw [Nat.mod_eq_of_lt (show k + 1 < 2 ^ w from hc),
      if_pos (show k + 1 > k by omega)]
  · have he : k + 1 = 2 ^ w := by omega
    rw [show (MenuState.mk k k).highlighted_item + 1 = 2 ^ w from he, Nat.mod_self,
      if_neg (show ¬0 > k by omega)]

/-- C4: `move_down` increments the cursor by one and resets it to 0
exactly when the incremented value is strictly greater than `item_count`;
the cursor transiently equals `item_count` before wrapping, and repeated
`move_down` calls cycle through `0 .. item_count` inclusive. -/
theorem move_down_increments_wraps_and_cycles (w : Nat) :
    (∀ s : MenuState, s.highlighted_item < 2 ^ w → s.item_count < 2 ^ w →
      (s.move_down w).highlighted_item =
        if s.highlighted_item + 1 > s.item_count then 0
        else s.highlighted_item + 1) ∧
    (∀ k : Nat, 0 < k → k < 2 ^ w →
      ((MenuState.mk (k - 1) k).move_down w).highlighted_item = k) ∧
    (∀ k j : Nat, k < 2 ^ w → j ≤ k →
      ((MenuState.move_down w)^[j] (MenuState.mk 0 k)).highlighted_item = j) ∧
    (∀ k : Nat, k < 2 ^ w →
      (MenuState.move_down w)^[k + 1] (MenuState.mk 0 k) = MenuState.mk 0 k) := by
  refine ⟨fun s h1 h2 => move_down_step w s h1 h2,
    fun k hk0 hk => ?_,
    fun k j hk hj => by rw [move_down_orbit w k hk j hj],
    fun k hk => ?_⟩
  · rw [move_down_step w (MenuState.mk (k - 1) k)
      (show k - 1 < 2 ^ w by omega) (show k < 2 ^ w from hk)]
    rw [if_neg (show ¬k - 1 + 1 > k by omega)]
    show k - 1 + 1 = k
    omega
  · rw [Function.iterate_succ_apply', move_down_orbit w k hk k le_rfl,
      move_down_wrap w k hk]

/-- C4 witness: the step rule, the transient `cursor = item_count` state
and the full cycle, at word size 32 and `item_count` 3 resp. 2. -/
theorem move_down_claim_witness :
    (2 : Nat) < 2 ^ 32 ∧ (3 : Nat) < 2 ^ 32 ∧ (0 : Nat) < 3 ∧ (1 : Nat) ≤ 2 ∧
    ((MenuState.mk 2 3).move_down 32).highlighted_item =
      (if 2 + 1 > 3 then 0 else 2 + 1) ∧
    ((MenuState.mk 2 3).move_down 32).highlighted_item = 3 ∧
    ((MenuState.move_down 32)^[1] (MenuState.mk 0 2)).highlighted_item = 1 ∧
    (MenuState.move_down 32)^[3] (MenuState.mk 0 2) = MenuState.mk 0 2 :=
  ⟨by decide, by decide, by decide, by decide,
    (move_down_increments_wraps_and_cycles 32).1 (MenuState.mk 2 3)
      (by decide) (by decide),
    (move_down_increments_wraps_and_cycles 32).2.1 3 (by decide) (by decide),
    (move_down_increments_wraps_and_cycles 32).2.2.1 2 1 (by decide) (by decide),
    (move_down_increments_wraps_and_cycles 32).2.2.2 2 (by decide)⟩

/-- C5 counterexample: both round trips of the claim fail on reachable
states with `item_count = 2`: at `cursor = 0`, `move_up` then `move_down`
yields cursor 2, not 0; and at the reachable transient `cursor = 2`
(equal to `item_count`), `move_down` then `move_up` yields cursor 1,
not 2. -/
theorem move_up_down_roundtrip_cex :
    ((MenuState.mk 0 2).move_up 32).move_down 32 ≠ MenuState.mk 0 2 ∧
    ((MenuState.mk 2 2).move_down 32).move_up 32 ≠ MenuState.mk 2 2 := by
  decide

/-- C5 (amended): with `item_count > 1` and the cursor in range,
`move_down` then `move_up` restores the cursor when it is strictly below
`item_count`, and `move_up` then `move_down` restores it when it is
nonzero; at the endpoints the round trips land elsewhere: from
`cursor = item_count`, down-then-up yields `item_count - 1`, and from
`cursor = 0`, up-then-down yields `item_count`. -/
theorem move_down_up_partial_roundtrip (w : Nat) (s : MenuState)
    (hk : s.item_count < 2 ^ w) (hk1 : 1 < s.item_count)
    (hc : s.highlighted_item ≤ s.item_count) :
    (s.highlighted_item < s.item_count → (s.move_down w).move_up w = s) ∧
    (0 < s.highlighted_item → (s.move_up w).move_down w = s) ∧
    (s.highlighted_item = s.item_count →
      ((s.move_down w).move_up w).highlighted_item = s.item_count - 1) ∧
    (s.highlighted_item = 0 →
      ((s.move_up w).move_down w).highlighted_item = s.item_count) := by
  rcases s with ⟨c, k⟩
  replace hk : k < 2 ^ w := hk
  replace hk1 : 1 < k := hk1
  replace hc : c ≤ k := hc
  have hup0 : (MenuState.mk 0 k).move_up w = MenuState.mk (k - 1) k := by
    unfold MenuState.move_up
    rw [if_pos rfl]
    show MenuState.mk ((k + (2 ^ w - 1)) % 2 ^ w) k = MenuState.mk (k - 1) k
    rw [show k + (2 ^ w - 1) = k - 1 + 2 ^ w by omega, Nat.add_mod_right,
      Nat.mod_eq_of_lt (by omega)]
  refine ⟨?_, ?_, ?_, ?_⟩
  · intro hlt
    replace hlt : c < k := hlt
    have hdown : (MenuState.mk c k).move_down w = MenuState.mk (c + 1) k := by
      unfold MenuState.move_down
      rw [Nat.mod_eq_of_lt (show c + 1 < 2 ^ w by omega),
        if_neg (show ¬c + 1 > k by omega)]
    rw [hdown]
    unfold MenuState.move_up
    rw [if_neg (show ¬c + 1 = 0 by omega)]
    rfl
  · intro h0
    replace h0 : 0 < c := h0
    have hup : (MenuState.mk c k).move_up w = MenuState.mk (c - 1) k := by
      unfold MenuState.move_up
      rw [if_neg (show ¬c = 0 by omega)]
    rw [hup]
    unfold MenuState.move_down
    rw [show c - 1 + 1 = c by omega, Nat.mod_eq_of_lt (show c < 2 ^ w by omega),
      if_neg (show ¬c > k by omega)]
  · intro hceq
    replace hceq : c = k := hceq
    subst hceq
    rw [move_down_wrap w c hk, hup0]
  · intro hc0
    replace hc0 : c = 0 := hc0
    subst hc0
    rw [hup0]
    unfold MenuState.move_down
    rw [show k - 1 + 1 = k by omega,
      Nat.mod_eq_of_lt (show k < 2 ^ w from hk),
      if_neg (show ¬k > k by omega)]

/-- C5 witness: at word size 32 with `item_count = 2`, the round trips
restore cursor 1 in both directions, while from the endpoints down-then-up
maps cursor 2 to 1 and up-then-down maps cursor 0 to 2. -/
theorem move_down_up_partial_roundtrip_witness :
    (2 : Nat) < 2 ^ 32 ∧ (1 : Nat) < 2 ∧ (1 : Nat) ≤ 2 ∧
    ((MenuState.mk 1 2).move_down 32).move_up 32 = MenuState.mk 1 2 ∧
    ((MenuState.mk 1 2).move_up 32).move_down 32 = MenuState.mk 1 2 ∧
    (((MenuState.mk 2 2).move_down 32).move_up 32).highlighted_item = 2 - 1 ∧
    (((MenuState.mk 0 2).move_up 32).move_down 32).highlighted_item = 2 :=
  ⟨by decide, by decide, by decide,
    (move_down_up_partial_roundtrip 32 (MenuState.mk 1 2)
      (by decide) (by decide) (by decide)).1 (by decide),
    (move_down_up_partial_roundtrip 32 (MenuState.mk 1 2)
      (by decide) (by decide) (by decide)).2.1 (by decide),
    (move_down_up_partial_roundtrip 32 (MenuState.mk 2 2)
      (by decide) (by decide) (by decide)).2.2.1 rfl,
    (move_down_up_partial_roundtrip 32 (MenuState.mk 0 2)
      (by decide) (by decide) (by decide)).2.2.2 rfl⟩

/-- C6: `move_up` sets the cursor to `item_count - 1` at cursor 0 and
decrements it otherwise; called in the initial state (cursor 0,
`item_count` 0), the subtraction underflows and the cursor becomes the
largest machine value `2 ^ w - 1` — a state, not a reported error. -/
theorem move_up_decrements_or_underflows (w : Nat) :
    (∀ s : MenuState, s.highlighted_item = 0 → 0 < s.item_count →
      s.item_count < 2 ^ w →
      (s.move_up w).highlighted_item = s.item_count - 1) ∧
    (∀ s : MenuState, 0 < s.highlighted_item →
      (s.move_up w).highlighted_item = s.highlighted_item - 1) ∧
    (MenuState.new.move_up w).highlighted_item = 2 ^ w - 1 := by
  have hp : 0 < 2 ^ w := pow_pos (by norm_num) w
  refine ⟨fun s h0 hpos hlt => ?_, fun s h0 => ?_, ?_⟩
  · unfold MenuState.move_up
    rw [if_pos h0]
    show (s.item_count + (2 ^ w - 1)) % 2 ^ w = s.item_count - 1
    rw [show s.item_count + (2 ^ w - 1) = s.item_count - 1 + 2 ^ w by omega,
      Nat.add_mod_right, Nat.mod_eq_of_lt (by omega)]
  · unfold MenuState.move_up
    rw [if_neg (by omega)]
  · show (MenuState.move_up w (MenuState.mk 0 0)).highlighted_item = 2 ^ w - 1
    unfold MenuState.move_up
    rw [if_pos rfl]
    show (0 + (2 ^ w - 1)) % 2 ^ w = 2 ^ w - 1
    rw [Nat.zero_add, Nat.mod_eq_of_lt (by omega)]

/-- C6 witness: at word size 32, `move_up` from cursor 0 with
`item_count` 5 gives 4, from cursor 3 gives 2, and from the initial state
gives `2 ^ 32 - 1`. -/
theorem move_up_decrements_or_underflows_witness :
    (MenuState.mk 0 5).highlighted_item = 0 ∧ (0 : Nat) < 5 ∧
    (5 : Nat) < 2 ^ 32 ∧ (0 : Nat) < 3 ∧
    ((MenuState.mk 0 5).move_up 32).highlighted_item = 5 - 1 ∧
    ((MenuState.mk 3 5).move_up 32).highlighted_item = 3 - 1 ∧
    (MenuState.new.move_up 32).highlighted_item = 2 ^ 32 - 1 :=
  ⟨rfl, by decide, by decide, by decide,
    (move_up_decrements_or_underflows 32).1 (MenuState.mk 0 5) rfl
      (by decide) (by decide),
    (move_up_decrements_or_underflows 32).2.1 (MenuState.mk 3 5) (by decide),
    (move_up_decrements_or_underflows 32).2.2⟩

/-- C7: `update_item_count` overwrites the stored count with the new
value and leaves the cursor unchanged, for every state and every new
count (no clamping). -/
theorem update_item_count_overwrites_count_keeps_cursor
    (s : MenuState) (new_count : Nat) :
    (s.update_item_count new_count).item_count = new_count ∧
    (s.update_item_count new_count).highlighted_item = s.highlighted_item :=
  ⟨rfl, rfl⟩

/-- C10: `select_item` is a no-op — tree, style, cursor and item count are
all unchanged. -/
theorem select_item_noop {C : Type} (m : Menu C) :
    m.select_item.menu_tree_root = m.menu_tree_root ∧
    m.select_item.menu_style = m.menu_style ∧
    m.select_item.menu_state.highlighted_item = m.menu_state.highlighted_item ∧
    m.select_item.menu_state.item_count = m.menu_state.item_count :=
  ⟨rfl, rfl, rfl, rfl⟩

/-! ## Mutation / item-count theorems -/

/-- Every mutation call appends exactly one direct child to the root and
stores the new direct-children count as `item_count`. -/
theorem applyMutation_children_and_count {C : Type} (m : Menu C)
    (mu : Mutation C) :
    (m.applyMutation mu).menu_tree_root.children.length
        = m.menu_tree_root.children.length + 1 ∧
    (m.applyMutation mu).menu_state.item_count
        = m.menu_tree_root.children.length + 1 := by
  cases mu <;>
    simp [Menu.applyMutation, Menu.add_checkbox, Menu.add_selector,
      Menu.add_section, Menu.add_submenu, Menu.add_item, Trees.Tree.push_back,
      Trees.Tree.iter_count, Trees.Tree.children, MenuState.update_item_count]

/-- Folding a mutation sequence: the root's direct-children count grows
by the sequence length, and for a nonempty sequence `item_count` equals
the final direct-children count. -/
theorem foldl_mutations_children_count {C : Type} (muts : List (Mutation C)) :
    ∀ m : Menu C,
      (muts.foldl Menu.applyMutation m).menu_tree_root.children.length
          = m.menu_tree_root.children.length + muts.length ∧
      (muts ≠ [] →
        (muts.foldl Menu.applyMutation m).menu_state.item_count
          = m.menu_tree_root.children.length + muts.length) := by
  induction muts with
  | nil => intro m; exact ⟨by simp, fun h => absurd rfl h⟩
  | cons mu rest ih =>
    intro m
    have h1 := applyMutation_children_and_count m mu
    have h2 := ih (m.applyMutation mu)
    constructor
    · simp only [List.foldl_cons, List.length_cons]
      rw [h2.1, h1.1]
      omega
    · intro _
      simp only [List.foldl_cons, List.length_cons]
      rcases eq_or_ne rest [] with hr | hr
      · subst hr
        simpa using h1.2
      · rw [h2.2 hr, h1.1]
        omega

/-- C1 (amended): after any sequence of N mutation calls on a menu built
with `Menu::new` (checkbox, selector, section, or absorbing any nested
submenu), the stored `item_count` equals N — the number of direct
children of the root; the root itself is not counted. -/
theorem item_count_after_mutation_sequence {C : Type} (title : String)
    (style : MenuStyle C) (muts : List (Mutation C)) :
    (muts.foldl Menu.applyMutation (Menu.new title style)).menu_state.item_count
      = muts.length := by
  rcases eq_or_ne muts [] with h | h
  · subst h; rfl
  · rw [(foldl_mutations_children_count muts (Menu.new title style)).2 h]
    simp [Menu.new, Trees.Tree.children]

/-- C1 counterexample: one `add_checkbox` on a fresh menu stores
`item_count = 1`, not `1 + 1` — the root is not included in the count. -/
theorem item_count_after_one_mutation_cex :
    ([Mutation.addCheckbox "a"].foldl Menu.applyMutation
        (Menu.new "m" sampleStyle)).menu_state.item_count ≠ 1 + 1 := by
  decide

/-! ## Draw-loop theorems -/

/-- The draw loop renders a prefix of its item list, in order. -/
theorem drawLoop_map_fst_take {C : Type} (items : List (MenuItem C))
    (rem : Rectangle) :
    (drawLoop items rem).map Prod.fst
      = items.take (drawLoop items rem).length := by
  induction items generalizing rem with
  | nil => simp [drawLoop]
  | cons it rest ih =>
    by_cases h : it.size_height > rem.size.height
    · simp [drawLoop, h]
    · simp [drawLoop, h, ih]

/-- If the summed heights of all items fit the remaining area, the loop
renders every item. -/
theorem drawLoop_total {C : Type} (items : List (MenuItem C)) (rem : Rectangle)
    (h : (items.map MenuItem.size_height).sum ≤ rem.size.height) :
    (drawLoop items rem).map Prod.fst = items := by
  induction items generalizing rem with
  | nil => simp [drawLoop]
  | cons it rest ih =>
    simp only [List.map_cons, List.sum_cons] at h
    have hfit : ¬it.size_height > rem.size.height := by omega
    simp only [drawLoop, if_neg hfit, List.map_cons]
    rw [ih]
    simp only [Rectangle.resized_height_bottom]
    omega

/-- C2 (amended): `Menu::draw` walks exactly the direct children of the
root in insertion order (the data of each child node, not a depth-first
descent into absorbed subtrees), skips the first `cursor` of them, and
renders them in that order as a prefix bounded by the viewport height;
with enough viewport height every remaining child is rendered. -/
theorem draw_visits_direct_children_prefix {C : Type} (m : Menu C)
    (display_area : Rectangle) :
    m.menu_iter_items
        = (m.menu_tree_root.children.map Trees.Tree.data).drop
            m.menu_state.highlighted_item ∧
    (m.placedItems display_area).map Prod.fst
        = m.menu_iter_items.take (m.placedItems display_area).length ∧
    ((m.menu_iter_items.map MenuItem.size_height).sum
          ≤ u32sub display_area.size.height
              m.menu_style.heading_character_style.line_height →
      (m.placedItems display_area).map Prod.fst = m.menu_iter_items) := by
  refine ⟨?_, drawLoop_map_fst_take _ _, fun h => drawLoop_total _ _ ?_⟩
  · simp [Menu.menu_iter_items]
  · simpa [Rectangle.resized_height_bottom] using h

/-- C2 witness: on the spec's sample menu and the 100×100 area, the
items fed to the loop are the root's direct children, the rendered list
is a prefix of them, and since both rows fit, both are rendered. -/
theorem draw_visits_direct_children_prefix_witness :
    sampleMenu.menu_iter_items
        = (sampleMenu.menu_tree_root.children.map Trees.Tree.data).drop
            sampleMenu.menu_state.highlighted_item ∧
    (sampleMenu.placedItems sampleArea).map Prod.fst
        = sampleMenu.menu_iter_items.take
            (sampleMenu.placedItems sampleArea).length ∧
    (sampleMenu.menu_iter_items.map MenuItem.size_height).sum
        ≤ u32sub sampleArea.size.height
            sampleMenu.menu_style.heading_character_style.line_height ∧
    (sampleMenu.placedItems sampleArea).map Prod.fst
        = sampleMenu.menu_iter_items :=
  have h := draw_visits_direct_children_prefix sampleMenu sampleArea
  ⟨h.1, h.2.1, by decide, h.2.2 (by decide)⟩

/-- C2 counterexample: for the menu holding an absorbed submenu with its
own entry, the claim's depth-first traversal (cursor entries skipped) has
two entries, while the code draws only the submenu's root entry — the
draw loop does not descend into subtrees. -/
theorem draw_not_dfs_traversal_cex :
    (nestedMenu.placedItems sampleArea).map Prod.fst
      ≠ nestedMenu.specInOrderTraversal.drop
          nestedMenu.menu_state.highlighted_item := by
  decide

/-! ## Error-propagation theorems -/

/-- Running a trace whose prefix succeeds and whose next operation fails
returns that error and invokes nothing after the failing operation. -/
theorem runOps_append_error {C E : Type} (exec : DrawOp C → Except E Unit)
    (pre : List (DrawOp C)) (op : DrawOp C) (post : List (DrawOp C)) (e : E)
    (hpre : ∀ o ∈ pre, exec o = .ok ()) (hop : exec op = .error e) :
    runOps exec (pre ++ op :: post) = .error e ∧
    invokedOps exec (pre ++ op :: post) = pre ++ [op] := by
  induction pre with
  | nil =>
    refine ⟨?_, ?_⟩
    · show runOps exec (op :: post) = .error e
      unfold runOps
      rw [hop]
    · show invokedOps exec (op :: post) = [op]
      unfold invokedOps
      rw [hop]
  | cons a pre ih =>
    have ha : exec a = .ok () := hpre a (by simp)
    have ih2 := ih fun o ho => hpre o (by simp [ho])
    refine ⟨?_, ?_⟩
    · show runOps exec (a :: (pre ++ op :: post)) = .error e
      unfold runOps
      rw [ha]
      exact ih2.1
    · show invokedOps exec (a :: (pre ++ op :: post)) = a :: (pre ++ [op])
      unfold invokedOps
      rw [ha, ih2.2]

/-- C8: if a surface operation of the draw pipeline fails, `draw` returns
that error, and the operations invoked on the surface are exactly the
successful prefix plus the failing operation — nothing later runs, no
retry, no rollback. -/
theorem draw_error_propagates {C E : Type} (m : Menu C)
    (display_area : Rectangle) (exec : DrawOp C → Except E Unit)
    (pre : List (DrawOp C)) (op : DrawOp C) (post : List (DrawOp C)) (e : E)
    (htrace : m.drawTrace display_area = pre ++ op :: post)
    (hpre : ∀ o ∈ pre, exec o = .ok ()) (hop : exec op = .error e) :
    m.draw display_area exec = .error e ∧
    invokedOps exec (m.drawTrace display_area) = pre ++ [op] := by
  have h := runOps_append_error exec pre op post e hpre hop
  constructor
  · show runOps exec (m.drawTrace display_area) = .error e
    rw [htrace]
    exact h.1
  · rw [htrace]
    exact h.2

/-- C8 witness: on the spec's sample menu, an executor failing at the
initial clear makes `draw` return that error with only the clear
invoked. -/
theorem draw_error_propagates_witness :
    sampleMenu.drawTrace sampleArea
        = [] ++ DrawOp.clear sampleArea 0 ::
            (sampleMenu.drawTrace sampleArea).tail ∧
    (∀ o ∈ ([] : List (DrawOp Nat)), failClearExec o = .ok ()) ∧
    failClearExec (DrawOp.clear sampleArea 0) = .error 7 ∧
    sampleMenu.draw sampleArea failClearExec = .error 7 ∧
    invokedOps failClearExec (sampleMenu.drawTrace sampleArea)
        = [] ++ [DrawOp.clear sampleArea 0] :=
  have happ := draw_error_propagates sampleMenu sampleArea failClearExec []
    (DrawOp.clear sampleArea 0) (sampleMenu.drawTrace sampleArea).tail 7
    rfl (by simp) rfl
  ⟨rfl, by simp, rfl, happ.1, happ.2⟩

/-! ## Viewport clipping theorems -/

/-- Rust `u32` subtraction does not wrap when the subtrahend is smaller. -/
theorem u32sub_eq_of_le (a b : Nat) (h : b ≤ a) : u32sub a b = a - b :=
  if_pos h

/-- The `u32 → i32` cast is the identity below `2 ^ 31`. -/
theorem i32cast_eq_of_lt (n : Nat) (h : n < 2 ^ 31) : i32cast n = n :=
  if_pos h

/-- Every operation a single entry issues stays within the first
`size_height` rows of its crop region (entries at the default zero
position, with a character height of at least 4 — the triangle's pad
arithmetic does not wrap — and below the `i32` bound). -/
theorem drawOps_rowHi_le {C : Type} (it : MenuItem C) (region : Rectangle)
    (hpos : it.position = Point.zero) (h4 : 4 ≤ it.size_height)
    (h31 : it.size_height ≤ 2 ^ 31) :
    ∀ op ∈ it.drawOps region,
      op.rowHi ≤ region.top_left.y + it.size_height := by
  rcases it with ⟨label, ty, hl, pos, style, opts⟩
  replace h4 : 4 ≤ style.item_character_style.charHeight := h4
  replace h31 : style.item_character_style.charHeight ≤ 2 ^ 31 := h31
  subst hpos
  intro op hop
  show op.rowHi ≤ region.top_left.y + style.item_character_style.charHeight
  cases ty with
  | Submenu =>
    simp only [MenuItem.drawOps, MenuItem.size_height,
      MonoTextStyle.measure_height, List.mem_cons, List.not_mem_nil, or_false]
      at hop
    rcases hop with rfl | rfl
    · simp only [DrawOp.rowHi, Rectangle.crop_within,
        Rectangle.resized_width_right, Point.zero]
      rw [u32sub_eq_of_le style.item_character_style.charHeight 2 (by omega),
        i32cast_eq_of_lt (style.item_character_style.charHeight - 2) (by omega),
        u32sub_eq_of_le style.item_character_style.charHeight 4 (by omega),
        i32cast_eq_of_lt ((style.item_character_style.charHeight - 4) / 2 + 2)
          (by omega)]
      omega
    · simp only [DrawOp.rowHi, Rectangle.crop_within,
        Rectangle.resized_width_left, Point.zero]
      omega
  | Checkbox =>
    simp only [MenuItem.drawOps, List.mem_cons, List.not_mem_nil, or_false]
      at hop
    rcases hop with rfl | rfl <;>
      simp only [DrawOp.rowHi, Point.zero] <;> omega
  | Section =>
    simp only [MenuItem.drawOps, List.mem_cons, List.not_mem_nil, or_false]
      at hop
    rcases hop with rfl
    simp only [DrawOp.rowHi, Point.zero]
    omega
  | Selector =>
    simp only [MenuItem.drawOps, List.mem_cons, List.not_mem_nil, or_false]
      at hop
    rcases hop with rfl
    simp only [DrawOp.rowHi, Point.zero]
    omega

/-- The loop's total consumed height never exceeds the remaining area's
height: every rendered row fits entirely. -/
theorem drawLoop_heightsSum_le {C : Type} (items : List (MenuItem C))
    (rem : Rectangle) :
    heightsSum (drawLoop items rem) ≤ rem.size.height := by
  induction items generalizing rem with
  | nil => simp [drawLoop, heightsSum]
  | cons it rest ih =>
    by_cases hfit : it.size_height > rem.size.height
    · simp [drawLoop, hfit, heightsSum]
    · have h2 := ih (rem.resized_height_bottom (rem.size.height - it.size_height))
      rw [show (rem.resized_height_bottom
            (rem.size.height - it.size_height)).size.height
          = rem.size.height - it.size_height from rfl] at h2
      simp only [drawLoop, if_neg hfit, heightsSum, List.map_cons, List.sum_cons]
      simp only [heightsSum] at h2
      omega

/-- When the loop stops short, the first unrendered item's height
strictly exceeds the leftover height. -/
theorem drawLoop_stop {C : Type} (items : List (MenuItem C)) (rem : Rectangle)
    (it : MenuItem C) (rest : List (MenuItem C))
    (hdrop : items.drop (drawLoop items rem).length = it :: rest) :
    rem.size.height - heightsSum (drawLoop items rem) < it.size_height := by
  induction items generalizing rem with
  | nil => simp [drawLoop] at hdrop
  | cons a tl ih =>
    by_cases hfit : a.size_height > rem.size.height
    · simp only [drawLoop, if_pos hfit, List.length_nil, List.drop_zero] at hdrop
      injection hdrop with h1 h2
      subst h1
      simp only [drawLoop, if_pos hfit, heightsSum, List.map_nil, List.sum_nil]
      omega
    · simp only [drawLoop, if_neg hfit, List.length_cons, List.drop_succ_cons]
        at hdrop ⊢
      have h2 := ih (rem.resized_height_bottom (rem.size.height - a.size_height))
        hdrop
      rw [show (rem.resized_height_bottom
            (rem.size.height - a.size_height)).size.height
          = rem.size.height - a.size_height from rfl] at h2
      simp only [heightsSum, List.map_cons, List.sum_cons] at h2 ⊢
      omega

/-- Every operation emitted by the loop stays above the consumed part of
the remaining area: no operation touches a row at or below
`remaining top + total consumed height`. -/
theorem drawLoop_ops_rowHi {C : Type} (items : List (MenuItem C))
    (rem : Rectangle)
    (hwf : ∀ it ∈ items, it.position = Point.zero ∧ 4 ≤ it.size_height ∧
      it.size_height ≤ 2 ^ 31) :
    ∀ op ∈ (drawLoop items rem).flatMap fun p => p.1.drawOps p.2,
      op.rowHi ≤ rem.top_left.y + heightsSum (drawLoop items rem) := by
  induction items generalizing rem with
  | nil => simp [drawLoop]
  | cons it rest ih =>
    by_cases hfit : it.size_height > rem.size.height
    · simp [drawLoop, hfit]
    · have hit := hwf it (by simp)
      have ihr := ih (rem.resized_height_bottom (rem.size.height - it.size_height))
        fun x hx => hwf x (by simp [hx])
      intro op hop
      simp only [drawLoop, if_neg hfit, List.flatMap_cons, List.mem_append]
        at hop ⊢
      have hsum : heightsSum
            ((it, rem) :: drawLoop rest
              (rem.resized_height_bottom (rem.size.height - it.size_height)))
          = it.size_height + heightsSum (drawLoop rest
              (rem.resized_height_bottom (rem.size.height - it.size_height))) := by
        simp [heightsSum]
      rw [hsum]
      have hy : (rem.resized_height_bottom
            (rem.size.height - it.size_height)).top_left.y
          = rem.top_left.y + (rem.size.height : Int)
              - ((rem.size.height - it.size_height : Nat) : Int) := rfl
      rcases hop with h1 | h2
      · have hb := drawOps_rowHi_le it rem hit.1 hit.2.1 hit.2.2 op h1
        omega
      · have hb := ihr op h2
        rw [hy] at hb
        omega

/-- C3: `Menu::draw` never renders a partial row.  The heights of the
rendered rows all fit the viewport (the display minus the header); the
loop stops exactly at the first entry whose height strictly exceeds the
leftover height, issuing no operation for it or anything after it; an
entry whose height exactly equals the initial viewport height is still
rendered; and every operation after the initial clear stays strictly
above the consumed rows, so the rest of the surface keeps the background
color the clear gave it. -/
theorem draw_never_renders_partial_row {C : Type} (m : Menu C)
    (display_area : Rectangle)
    (hwf : ∀ it ∈ m.menu_iter_items, it.position = Point.zero ∧
      4 ≤ it.size_height ∧ it.size_height ≤ 2 ^ 31)
    (hhdr : m.menu_style.heading_character_style.line_height
      ≤ display_area.size.height) :
    heightsSum (m.placedItems display_area)
        ≤ display_area.size.height
            - m.menu_style.heading_character_style.line_height ∧
    (∀ it rest,
      m.menu_iter_items.drop (m.placedItems display_area).length = it :: rest →
      display_area.size.height
          - m.menu_style.heading_character_style.line_height
          - heightsSum (m.placedItems display_area) < it.size_height) ∧
    (∀ it rest, m.menu_iter_items = it :: rest →
      it.size_height
          = display_area.size.height
              - m.menu_style.heading_character_style.line_height →
      ∃ tl, m.placedItems display_area
        = (it, display_area.resized_height_bottom
            (u32sub display_area.size.height
              m.menu_style.heading_character_style.line_height)) :: tl) ∧
    (∀ op ∈ (m.drawTrace display_area).tail,
      op.rowHi ≤ display_area.top_left.y
        + (m.menu_style.heading_character_style.line_height
            + heightsSum (m.placedItems display_area))) := by
  have hrem : (display_area.resized_height_bottom
        (u32sub display_area.size.height
          m.menu_style.heading_character_style.line_height)).size.height
      = display_area.size.height
          - m.menu_style.heading_character_style.line_height := by
    rw [show (display_area.resized_height_bottom
          (u32sub display_area.size.height
            m.menu_style.heading_character_style.line_height)).size.height
        = u32sub display_area.size.height
            m.menu_style.heading_character_style.line_height from rfl]
    exact u32sub_eq_of_le _ _ hhdr
  have hplaced : m.placedItems display_area
      = drawLoop m.menu_iter_items
          (display_area.resized_height_bottom
            (u32sub display_area.size.height
              m.menu_style.heading_character_style.line_height)) := rfl
  refine ⟨?_, ?_, ?_, ?_⟩
  · rw [hplaced, ← hrem]
    exact drawLoop_heightsSum_le _ _
  · intro it rest hdrop
    rw [hplaced] at hdrop ⊢
    have := drawLoop_stop m.menu_iter_items _ it rest hdrop
    rw [hrem] at this
    exact this
  · intro it rest hitems hexact
    rw [hplaced, hitems]
    have hnofit : ¬it.size_height
        > (display_area.resized_height_bottom
            (u32sub display_area.size.height
              m.menu_style.heading_character_style.line_height)).size.height := by
      rw [hrem, hexact]
      omega
    exact ⟨_, by rw [drawLoop, if_neg hnofit]⟩
  · intro op hop
    have htail : (m.drawTrace display_area).tail
        = DrawOp.text display_area m.menu_tree_root.data.label Point.zero
            m.menu_style.heading_character_style .Left .Top ::
          ((m.placedItems display_area).flatMap fun p => p.1.drawOps p.2) := rfl
    rw [htail] at hop
    rcases List.mem_cons.mp hop with rfl | hmem
    · simp only [DrawOp.rowHi, Point.zero, MonoTextStyle.line_height] at *
      omega
    · have hb := drawLoop_ops_rowHi m.menu_iter_items _ hwf op
        (by rw [← hplaced]; exact hmem)
      rw [← hplaced] at hb
      have hy : (display_area.resized_height_bottom
            (u32sub display_area.size.height
              m.menu_style.heading_character_style.line_height)).top_left.y
          = display_area.top_left.y + (display_area.size.height : Int)
              - ((u32sub display_area.size.height
                  m.menu_style.heading_character_style.line_height : Nat) : Int) :=
        rfl
      rw [hy, u32sub_eq_of_le _ _ hhdr] at hb
      omega

/-- C3 witness: the spec's sample menu on the 100×100 surface — both
rows fit (20 ≤ 90), the loop stops at nothing, the exact-fit clause is
vacuous here, and every post-clear operation stays above row 30. -/
theorem draw_never_renders_partial_row_witness :
    (∀ it ∈ sampleMenu.menu_iter_items, it.position = Point.zero ∧
      4 ≤ it.size_height ∧ it.size_height ≤ 2 ^ 31) ∧
    sampleMenu.menu_style.heading_character_style.line_height
        ≤ sampleArea.size.height ∧
    heightsSum (sampleMenu.placedItems sampleArea)
        ≤ sampleArea.size.height
            - sampleMenu.menu_style.heading_character_style.line_height ∧
    (∀ op ∈ (sampleMenu.drawTrace sampleArea).tail,
      op.rowHi ≤ sampleArea.top_left.y
        + (sampleMenu.menu_style.heading_character_style.line_height
            + heightsSum (sampleMenu.placedItems sampleArea))) :=
  have h := draw_never_renders_partial_row sampleMenu sampleArea
    (by decide) (by decide)
  ⟨by decide, by decide, h.1, h.2.2.2⟩

/-! ## Checkbox rendering theorems -/

/-- C9: a Checkbox entry draws its label left-aligned at top baseline and
the literal three-character glyph "[ ]" right-aligned at top baseline
anchored at the region's full width, for every label and every region. -/
theorem checkbox_draw_right_aligned_glyph {C : Type} (it : MenuItem C)
    (region : Rectangle) (hty : it.item_type = .Checkbox)
    (hw : region.size.width < 2 ^ 31) :
    it.drawOps region
        = [DrawOp.text region it.label it.position
             it.menu_style.item_character_style .Left .Top,
           DrawOp.text region "[ ]" ⟨(region.size.width : Int), 0⟩
             it.menu_style.item_character_style .Right .Top] ∧
    ("[ ]").length = 3 ∧
    textExtentX ⟨(region.size.width : Int), 0⟩ .Right
        (it.menu_style.item_character_style.text_width "[ ]")
      = ((region.size.width : Int)
            - 3 * it.menu_style.item_character_style.charWidth,
         (region.size.width : Int)) ∧
    textExtentX it.position .Left
        (it.menu_style.item_character_style.text_width it.label)
      = (it.position.x,
         it.position.x
           + it.menu_style.item_character_style.text_width it.label) := by
  refine ⟨?_, rfl, ?_, rfl⟩
  · simp [MenuItem.drawOps, hty, i32cast, hw]
    omega
  · refine Prod.ext ?_ rfl
    show (region.size.width : Int)
          - ((3 * it.menu_style.item_character_style.charWidth : Nat) : Int)
        = (region.size.width : Int)
          - 3 * (it.menu_style.item_character_style.charWidth : Int)
    push_cast
    ring

/-- C9 witness: the checkbox "Sound" drawn on the 100-wide sample area
emits exactly the left-aligned label and the right-aligned "[ ]" anchored
at x = 100, whose extent ends at the full width. -/
theorem checkbox_draw_right_aligned_glyph_witness :
    (MenuItem.new "Sound" MenuItemType.Checkbox sampleStyle).item_type
        = MenuItemType.Checkbox ∧
    sampleArea.size.width < 2 ^ 31 ∧
    (MenuItem.new "Sound" MenuItemType.Checkbox sampleStyle).drawOps sampleArea
        = [DrawOp.text sampleArea "Sound" Point.zero sampleText .Left .Top,
           DrawOp.text sampleArea "[ ]" ⟨(sampleArea.size.width : Int), 0⟩
             sampleText .Right .Top] ∧
    textExtentX ⟨(sampleArea.size.width : Int), 0⟩ .Right
        (sampleText.text_width "[ ]")
      = ((sampleArea.size.width : Int) - 3 * sampleText.charWidth,
         (sampleArea.size.width : Int)) :=
  ⟨rfl, by decide,
    (checkbox_draw_right_aligned_glyph
      (MenuItem.new "Sound" MenuItemType.Checkbox sampleStyle) sampleArea
      rfl (by decide)).1,
    (checkbox_draw_right_aligned_glyph
      (MenuItem.new "Sound" MenuItemType.Checkbox sampleStyle) sampleArea
      rfl (by decide)).2.2.1⟩

end EGMenu
